import Mathlib

/-!
Shallow embedding of the planning layer of the `fftw3-rs` crate
(modules `src/builder2/mod.rs`, `src/builder2/fft_data.rs`, `src/builder.rs`,
`src/plan.rs`, `src/lock.rs`).

Modelling conventions:
* Buffer element values are opaque: every planning decision in the source
  reads only lengths and strides of the buffers, never element values, so
  elements are represented as `Int` stand-ins (`f64` and `Complex<f64>` alike).
* Calls into the external FFTW engine are reified: the engine is an oracle
  `Engine : LoweringCall → Option Nat` (a null descriptor models failure), and
  every function that the Rust code routes through the FFI also returns the
  list of engine events it emits, each tagged with whether the process-wide
  FFTW lock (`lock::run`) is held at that call site.
* Rust panics (`unimplemented!()` / failed `assert!`) are modelled as a
  distinguished `panicked` outcome, keeping the two panic sources apart.
-/

namespace Fftw3

/-- Modelled from the spec: the external engine's flag constant for the
`Estimate` rigor (`ffi::FFTW_ESTIMATE`); the `fftw3-sys` bindings are not under
`src/`, so the numeric values follow FFTW3's published header (`1 << 6`). -/
def FFTW_ESTIMATE : Nat := 64

/-- Modelled from the spec: `ffi::FFTW_MEASURE` (FFTW3 header value `0`). -/
def FFTW_MEASURE : Nat := 0

/-- Modelled from the spec: `ffi::FFTW_PATIENT` (FFTW3 header value `1 << 5`). -/
def FFTW_PATIENT : Nat := 32

/-- Modelled from the spec: `ffi::FFTW_EXHAUSTIVE` (FFTW3 header value `1 << 3`). -/
def FFTW_EXHAUSTIVE : Nat := 8

/-- Modelled from the spec: `ffi::FFTW_WISDOM_ONLY` (FFTW3 header value `1 << 21`). -/
def FFTW_WISDOM_ONLY : Nat := 2097152

/-- Modelled from the spec: `ffi::FFTW_FORWARD` (FFTW3 header value `-1`). -/
def FFTW_FORWARD : Int := -1

/-- Modelled from the spec: `ffi::FFTW_BACKWARD` (FFTW3 header value `+1`). -/
def FFTW_BACKWARD : Int := 1

/-- Modelled from the spec: the engine's real-to-real kind codes
(`FFTW_R2HC = 0`, `FFTW_HC2R = 1`, `FFTW_DHT = 2`, `FFTW_REDFT00 = 3`,
`FFTW_REDFT01 = 4`, `FFTW_REDFT10 = 5`, `FFTW_REDFT11 = 6`, `FFTW_RODFT00 = 7`,
`FFTW_RODFT01 = 8`, `FFTW_RODFT10 = 9`, `FFTW_RODFT11 = 10`). -/
def FFTW_R2HC : Nat := 0

def FFTW_HC2R : Nat := 1

def FFTW_DHT : Nat := 2

def FFTW_REDFT00 : Nat := 3

def FFTW_REDFT01 : Nat := 4

def FFTW_REDFT10 : Nat := 5

def FFTW_REDFT11 : Nat := 6

def FFTW_RODFT00 : Nat := 7

def FFTW_RODFT01 : Nat := 8

def FFTW_RODFT10 : Nat := 9

def FFTW_RODFT11 : Nat := 10

/-- `Rigor` from `src/builder2/mod.rs` (the identical enum also appears in
`src/builder.rs`). -/
inductive Rigor where
  | estimate
  | measure
  | patient
  | exhaustive
deriving DecidableEq

/-- `Rigor::flags` (`src/builder2/mod.rs` lines 36-45; identical in
`src/builder.rs` lines 23-32). -/
def Rigor.flags : Rigor → Nat
  | .estimate => FFTW_ESTIMATE
  | .measure => FFTW_MEASURE
  | .patient => FFTW_PATIENT
  | .exhaustive => FFTW_EXHAUSTIVE

/-- `Direction` from `src/builder2/mod.rs` (also in `src/builder.rs`). -/
inductive Direction where
  | forward
  | backward
deriving DecidableEq

/-- `Direction::sign` (`src/builder2/mod.rs` lines 53-60; `Planner::dir` in
`src/builder.rs` computes the same mapping). -/
def Direction.sign : Direction → Int
  | .forward => FFTW_FORWARD
  | .backward => FFTW_BACKWARD

/-- `Dim` from `src/builder2/mod.rs` lines 96-103 (`src/builder.rs` defines an
identical struct). -/
structure Dim where
  n : Nat
  in_stride : Nat
  out_stride : Nat
deriving DecidableEq

/-- `Dim::size` (`src/builder2/mod.rs` lines 107-112): the required real-side
and complex-side element counts.  The source asserts `ds.len() > 0`; every
caller establishes this, and the empty list is given the junk value `(0, 0)`
which no theorem relies on. -/
def Dim.size (ds : List Dim) : Nat × Nat :=
  match ds.getLast? with
  | some last =>
    let head := ds.dropLast.foldl (fun m d => m * d.n) 1
    (head * last.n, head * (last.n / 2 + 1))
  | none => (0, 0)

/-- A strided mutable storage (the `strided` crate's `MutStride` view and the
`MutStrided` owners it is taken from): element values are opaque `Int`
stand-ins, since planning reads only `len()` and `stride()`. -/
structure Buffer where
  data : List Int
  stride : Nat
deriving DecidableEq

/-- `len()` of a buffer. -/
def Buffer.len (b : Buffer) : Nat := b.data.length

/-- The engine's plan-creation entry points reachable from this crate
(`fftw_plan_guru64_dft`, `fftw_plan_guru64_dft_r2c`, `fftw_plan_guru64_dft_c2r`,
`fftw_plan_guru64_r2r`). -/
inductive EntryPoint where
  | guru64Dft
  | guru64DftR2c
  | guru64DftC2r
  | guru64R2r
deriving DecidableEq

/-- One plan-creation call into the engine: entry point plus every argument the
Rust code passes (buffer addresses are omitted; the buffers themselves appear
in the surrounding state).  `sign` is `none` for the entry points whose C
signature takes no direction, `kinds` is `some` only for the r2r entry
point. -/
structure LoweringCall where
  entry : EntryPoint
  rank : Nat
  dims : List Dim
  howmanyRank : Nat
  howmanyDims : List Dim
  sign : Option Int
  kinds : Option (List Nat)
  flags : Nat
deriving DecidableEq

/-- An engine operation: plan creation, execution, or teardown. -/
inductive EngineOp where
  | create (c : LoweringCall)
  | execute (descriptor : Nat)
  | destroy (descriptor : Nat)
deriving DecidableEq

/-- An engine call event together with whether the process-wide FFTW mutex
(`lock::run`, `src/lock.rs`) is held at that call site. -/
structure EngineEvent where
  op : EngineOp
  locked : Bool
deriving DecidableEq

/-- The external engine as an oracle: a plan-creation call either yields a
descriptor id or a null plan (`none`). -/
def Engine : Type := LoweringCall → Option Nat

/-- `RawPlan` (`src/plan.rs` lines 9-11): a thin wrapper around the engine's
opaque descriptor. -/
structure RawPlan where
  plan : Nat
deriving DecidableEq

/-- `RawPlan::new` (`src/plan.rs` lines 17-25): evaluates the plan-creation
closure inside `lock::run`, so the creation event is emitted with the lock
held; a null descriptor gives `none`. -/
def RawPlan.new (eng : Engine) (c : LoweringCall) : Option RawPlan × List EngineEvent :=
  ((eng c).map RawPlan.mk, [⟨.create c, true⟩])

/-- `Drop for RawPlan` (`src/plan.rs` lines 44-48): calls
`ffi::fftw_destroy_plan` directly, with no `lock::run` wrapper, so the destroy
event is emitted with the lock not held. -/
def RawPlan.drop (p : RawPlan) : List EngineEvent :=
  [⟨.destroy p.plan, false⟩]

/-- `RawPlan::execute` (`src/plan.rs` lines 39-41): calls `ffi::fftw_execute`
directly (unguarded). -/
def RawPlan.execute (p : RawPlan) : List EngineEvent :=
  [⟨.execute p.plan, false⟩]

/-- `PlanningError` (`src/builder2/mod.rs` lines 204-211).  The two `Nat`
arguments of `bufferTooSmall` are positional, exactly as in the Rust
`BufferTooSmall(usize, usize, Vec<Dim>)`; every construction site passes
`(in_len, out_len, meta.dims.clone())`. -/
inductive PlanningError where
  | fftwError
  | noLengthNoDefault
  | bufferTooSmall (a b : Nat) (dims : List Dim)
deriving DecidableEq

/-- The `PlanResult<RawPlan>` alias (`src/builder2/mod.rs` line 214)
specialised to `RawPlan`. -/
inductive PlanRes where
  | ok (p : RawPlan)
  | err (e : PlanningError)
deriving DecidableEq

/-- `do_plan` (`src/builder2/mod.rs` lines 217-222): runs the lowering call
through `RawPlan::new` and maps a null plan to `FftwError`. -/
def do_plan (eng : Engine) (c : LoweringCall) : PlanRes × List EngineEvent :=
  match RawPlan.new eng c with
  | (some p, ev) => (.ok p, ev)
  | (none, ev) => (.err .fftwError, ev)

/-- The two distinct panic sources in the planning code: the
`unimplemented!()` branches of the in-place r2c/c2r paths, and `assert!`
failures (such as the r2r kind-count check). -/
inductive PanicKind where
  | unimplemented
  | assertionFailed
deriving DecidableEq

/-- Observable outcome of one `FftData::plan` call: a panic, or a returned
`PlanResult` together with the engine events emitted along the way. -/
inductive PlanOutcome where
  | panicked (k : PanicKind)
  | returned (r : PlanRes) (events : List EngineEvent)
deriving DecidableEq

/-- `R2rKind` (`src/builder2/mod.rs` lines 137-167). -/
inductive R2rKind where
  | r2hc
  | hc2r
  | dht
  | dct00
  | dct01
  | dct10
  | dct11
  | dst00
  | dst01
  | dst10
  | dst11
deriving DecidableEq

/-- `R2rKind::as_fftw` (`src/builder2/mod.rs` lines 170-184). -/
def R2rKind.as_fftw : R2rKind → Nat
  | .r2hc => FFTW_R2HC
  | .hc2r => FFTW_HC2R
  | .dht => FFTW_DHT
  | .dct00 => FFTW_REDFT00
  | .dct01 => FFTW_REDFT01
  | .dct10 => FFTW_REDFT10
  | .dct11 => FFTW_REDFT11
  | .dst00 => FFTW_RODFT00
  | .dst01 => FFTW_RODFT01
  | .dst10 => FFTW_RODFT10
  | .dst11 => FFTW_RODFT11

/-- `Meta` (`src/builder2/mod.rs` lines 188-200): the mutable specification
record aggregated by the builder. -/
structure Meta where
  rigor : Rigor
  wisdom_restriction : Bool
  direction : Direction
  in_stride : Nat
  out_stride : Nat
  r2r_kinds : List Nat
  overall_dims : List Dim
  dims : List Dim
  howmany : List Dim
deriving DecidableEq

/-- `impl FftData<Complex<f64>> for Complex<f64>`, method `plan`
(`src/builder2/fft_data.rs` lines 39-84): the complex→complex lowering.  When
`out` is `none` (the in-place case) the output pointer, length and stride fall
back to the input's. -/
def planC2C (eng : Engine) (in_ : Buffer) (out : Option Buffer) (meta : Meta) : PlanOutcome :=
  let in_len := in_.len
  let in_stride := in_.stride
  let out_len := match out with
    | some o => o.len
    | none => in_len
  let out_stride := match out with
    | some o => o.stride
    | none => in_stride
  let use_default_length := meta.dims.isEmpty
  let default : List Dim := [⟨in_len, in_stride, out_stride⟩]
  let required_len := if use_default_length then in_len else (Dim.size meta.dims).fst
  if in_len < required_len ∨ out_len < required_len then
    .returned (.err (.bufferTooSmall in_len out_len meta.dims)) []
  else
    let rank := if use_default_length then 1 else meta.dims.length
    let dims := if use_default_length then default else meta.dims
    let c : LoweringCall :=
      ⟨.guru64Dft, rank, dims, meta.howmany.length, meta.howmany,
       some meta.direction.sign, none, meta.rigor.flags⟩
    let r := do_plan eng c
    .returned r.fst r.snd

/-- `impl FftData<Complex<f64>> for f64`, method `plan`
(`src/builder2/fft_data.rs` lines 87-122): the real→complex lowering.  An
absent output hits `unimplemented!()`; an empty dimension list is
`NoLengthNoDefault`; the buffer check compares the input against the real
extent and the output against the complex extent. -/
def planR2C (eng : Engine) (in_ : Buffer) (out : Option Buffer) (meta : Meta) : PlanOutcome :=
  let in_len := in_.len
  match out with
  | none => .panicked .unimplemented
  | some o =>
    let out_len := o.len
    if meta.dims.isEmpty then
      .returned (.err .noLengthNoDefault) []
    else
      let sizes := Dim.size meta.dims
      if in_len < sizes.fst ∨ out_len < sizes.snd then
        .returned (.err (.bufferTooSmall in_len out_len meta.dims)) []
      else
        let c : LoweringCall :=
          ⟨.guru64DftR2c, meta.dims.length, meta.dims, meta.howmany.length, meta.howmany,
           none, none, meta.rigor.flags⟩
        let r := do_plan eng c
        .returned r.fst r.snd

/-- `impl FftData<f64> for Complex<f64>`, method `plan`
(`src/builder2/fft_data.rs` lines 123-158): the complex→real lowering.  The
buffer check compares the input against the complex extent and the output
against the real extent, and the error is built as
`BufferTooSmall(in_len, out_len, dims)` — complex-side length first. -/
def planC2R (eng : Engine) (in_ : Buffer) (out : Option Buffer) (meta : Meta) : PlanOutcome :=
  let in_len := in_.len
  match out with
  | none => .panicked .unimplemented
  | some o =>
    let out_len := o.len
    if meta.dims.isEmpty then
      .returned (.err .noLengthNoDefault) []
    else
      let sizes := Dim.size meta.dims
      if in_len < sizes.snd ∨ out_len < sizes.fst then
        .returned (.err (.bufferTooSmall in_len out_len meta.dims)) []
      else
        let c : LoweringCall :=
          ⟨.guru64DftC2r, meta.dims.length, meta.dims, meta.howmany.length, meta.howmany,
           none, none, meta.rigor.flags⟩
        let r := do_plan eng c
        .returned r.fst r.snd

/-- `impl FftData<f64> for f64`, method `plan` (`src/builder2/fft_data.rs`
lines 160-206): the real→real lowering.  After the buffer check the source
asserts `r2r_kinds.len() == rank || r2r_kinds.len() == 1` before calling the
engine. -/
def planR2R (eng : Engine) (in_ : Buffer) (out : Option Buffer) (meta : Meta) : PlanOutcome :=
  let in_len := in_.len
  let in_stride := in_.stride
  let out_len := match out with
    | some o => o.len
    | none => in_len
  let out_stride := match out with
    | some o => o.stride
    | none => in_stride
  let use_default_length := meta.dims.isEmpty
  let default : List Dim := [⟨in_len, in_stride, out_stride⟩]
  let required_len := if use_default_length then in_len else (Dim.size meta.dims).fst
  if in_len < required_len ∨ out_len < required_len then
    .returned (.err (.bufferTooSmall in_len out_len meta.dims)) []
  else
    let rank := if use_default_length then 1 else meta.dims.length
    let dims := if use_default_length then default else meta.dims
    if meta.r2r_kinds.length = rank ∨ meta.r2r_kinds.length = 1 then
      let c : LoweringCall :=
        ⟨.guru64R2r, rank, dims, meta.howmany.length, meta.howmany,
         none, some meta.r2r_kinds, meta.rigor.flags⟩
      let r := do_plan eng c
      .returned r.fst r.snd
    else
      .panicked .assertionFailed

/-- The element types a storage can hold in this crate (`f64` or
`Complex<f64>`). -/
inductive ElemTy where
  | real
  | complex
deriving DecidableEq

/-- Static dispatch over the `(Self, Target)` pair of the four `FftData`
impls in `src/builder2/fft_data.rs`. -/
def fftDataPlan : ElemTy → ElemTy → Engine → Buffer → Option Buffer → Meta → PlanOutcome
  | .complex, .complex => planC2C
  | .real, .complex => planR2C
  | .complex, .real => planC2R
  | .real, .real => planR2R

/-- The data of a terminal builder stage (`Inplace<I>` or `Io<I, O>`,
`src/builder2/mod.rs` lines 76-86), tagged with the element types the Rust
generics carry. -/
inductive SpecData where
  | inplace (elem : ElemTy) (in_out : Buffer)
  | io (inElem outElem : ElemTy) (in_ out : Buffer)
deriving DecidableEq

/-- The element-type pairing of a terminal stage. -/
def SpecData.pairing : SpecData → ElemTy × ElemTy
  | .inplace e _ => (e, e)
  | .io t u _ _ => (t, u)

/-- `FftSpec::plan` for the two impls (`src/builder2/fft_data.rs` lines
12-35): `Inplace<I>` requires `I::Elem: FftData<I::Elem>` and so dispatches the
diagonal impl with `out = None`; `Io<I, O>` dispatches `FftData<O::Elem> for
I::Elem` with `out = Some(...)`. -/
def SpecData.plan (eng : Engine) : SpecData → Meta → PlanOutcome
  | .inplace e buf, meta => fftDataPlan e e eng buf none meta
  | .io t u i o, meta => fftDataPlan t u eng i (some o) meta

/-- `Begin` stage marker (`src/builder2/mod.rs` line 65). -/
inductive BeginS where
  | mk
deriving DecidableEq

/-- `Input<I>` stage data (`src/builder2/mod.rs` lines 69-71), tagged with the
bound element type. -/
structure InputS where
  elem : ElemTy
  in_ : Buffer
deriving DecidableEq

/-- `Planner<Stage, State>` (`src/builder2/mod.rs` lines 243-250): the staged
builder, a `Meta` plus the stage data.  The compile-time `State` tag
(`Ready` / `R2R`) has no runtime content and is tracked in comments. -/
structure Planner (σ : Type) where
  meta : Meta
  data : σ
deriving DecidableEq

/-- `Planner::new` (`src/builder2/mod.rs` lines 255-276). -/
def Planner.new : Planner BeginS :=
  { meta :=
      { rigor := .estimate
        wisdom_restriction := false
        direction := .forward
        r2r_kinds := []
        overall_dims := []
        dims := []
        howmany := []
        in_stride := 1
        out_stride := 1 }
    data := .mk }

/-- `Planner::input` (`src/builder2/mod.rs` lines 283-291): records the input
storage's element stride and binds the storage. -/
def Planner.input (p : Planner BeginS) (e : ElemTy) (b : Buffer) : Planner InputS :=
  { meta := { p.meta with in_stride := b.stride }
    data := ⟨e, b⟩ }

/-- `Planner::rigor` (`src/builder2/mod.rs` lines 296-299): available in every
stage (`impl<X, Y> Planner<X, Y>`), returns the same stage. -/
def Planner.rigor (p : Planner σ) (r : Rigor) : Planner σ :=
  { p with meta := { p.meta with rigor := r } }

/-- `Planner::wisdom_restriction` (`src/builder2/mod.rs` lines 302-305):
available in every stage, returns the same stage. -/
def Planner.wisdom_restriction (p : Planner σ) (wisdom_only : Bool) : Planner σ :=
  { p with meta := { p.meta with wisdom_restriction := wisdom_only } }

/-- `Planner::direction` (`src/builder2/mod.rs` lines 308-311): available in
every stage, returns the same stage. -/
def Planner.direction (p : Planner σ) (d : Direction) : Planner σ :=
  { p with meta := { p.meta with direction := d } }

/-- `Planner::output` (`src/builder2/mod.rs` lines 318-332): records the
output storage's element stride and moves to the `Io` terminal stage.  The
Rust bound `I::Elem: FftData<O::Elem>` is satisfied by all four element-type
pairs. -/
def Planner.output (p : Planner InputS) (oe : ElemTy) (ob : Buffer) : Planner SpecData :=
  { meta := { p.meta with out_stride := ob.stride }
    data := .io p.data.elem oe p.data.in_ ob }

/-- `Planner::inplace` (`src/builder2/mod.rs` lines 341-349): sets
`out_stride = in_stride` and moves to the `Inplace` terminal stage.  The Rust
bound `I::Elem: FftData<I::Elem>` restricts the eventual lowering to the
diagonal impls (complex→complex or real→real). -/
def Planner.inplace (p : Planner InputS) : Planner SpecData :=
  { meta := { p.meta with out_stride := p.meta.in_stride }
    data := .inplace p.data.elem p.data.in_ }

/-- The row-major stride assignment loop of `Planner::nd`
(`src/builder2/mod.rs` lines 397-402): the source iterates the freshly
rebuilt dimension list in reverse, assigning the running stride and then
multiplying it by the length; this helper runs over the reversed length list
carrying the running stride. -/
def rowMajorStrides : Nat → List Nat → List Dim
  | _, [] => []
  | stride, n :: rest => ⟨n, stride, stride⟩ :: rowMajorStrides (stride * n) rest

/-- The dimension list `Planner::nd` installs for a given length list. -/
def ndDims (lengths : List Nat) : List Dim :=
  (rowMajorStrides 1 lengths.reverse).reverse

/-- `Planner::nd` (`src/builder2/mod.rs` lines 392-404): asserts the length
list is non-empty (`none` models the panic), clears the dimension list and
rebuilds it with row-major strides. -/
def Planner.nd (p : Planner SpecData) (dims : List Nat) : Option (Planner SpecData) :=
  if dims.isEmpty then none
  else some { p with meta := { p.meta with dims := ndDims dims } }

/-- `Planner::_1d` (`src/builder2/mod.rs` lines 362-364): delegates to `nd`. -/
def Planner._1d (p : Planner SpecData) (n : Nat) : Option (Planner SpecData) :=
  p.nd [n]

/-- `Planner::_2d` (`src/builder2/mod.rs` lines 372-374): delegates to `nd`. -/
def Planner._2d (p : Planner SpecData) (n0 n1 : Nat) : Option (Planner SpecData) :=
  p.nd [n0, n1]

/-- `Planner::_3d` (`src/builder2/mod.rs` lines 382-384): delegates to `nd`. -/
def Planner._3d (p : Planner SpecData) (n0 n1 n2 : Nat) : Option (Planner SpecData) :=
  p.nd [n0, n1, n2]

/-- The explicit-stride loop of `Planner::nd_subarray` (`src/builder2/mod.rs`
lines 421-429), over the reversed entry list carrying both running strides. -/
def subarrayStrides : Nat → Nat → List (Nat × Nat × Nat) → List Dim
  | _, _, [] => []
  | is, os, (n, i, o) :: rest => ⟨n, is, os⟩ :: subarrayStrides (is * i) (os * o) rest

/-- `Planner::nd_subarray` (`src/builder2/mod.rs` lines 414-432). -/
def Planner.nd_subarray (p : Planner SpecData) (dims : List (Nat × Nat × Nat)) :
    Option (Planner SpecData) :=
  if dims.isEmpty then none
  else some { p with meta := { p.meta with dims := (subarrayStrides 1 1 dims.reverse).reverse } }

/-- `Planner::r2r_kinds` (`src/builder2/mod.rs` lines 499-510): asserts the
kind list is non-empty (`none` models the panic), clears and rebuilds
`meta.r2r_kinds` with the engine codes, and moves the `R2R` state to `Ready`.
In the source this is only callable when the spec is real→real. -/
def Planner.r2r_kinds (p : Planner SpecData) (kinds : List R2rKind) :
    Option (Planner SpecData) :=
  if kinds.isEmpty then none
  else some { p with meta := { p.meta with r2r_kinds := kinds.map R2rKind.as_fftw } }

/-- `Plan<X>` (`src/builder2/mod.rs` lines 532-535): the consumed planner
(whose storages it now owns) plus the raw descriptor. -/
structure BPlan where
  planner : Planner SpecData
  plan : RawPlan
deriving DecidableEq

/-- The observable result of `Planner::plan`: the Rust signature is
`Result<Plan<X>, PlanningError>` — the `Err` branch carries only the error,
never the builder — and the panics of the lowering paths are also
observable. -/
inductive PlannerPlanResult where
  | panicked (k : PanicKind)
  | ok (pl : BPlan)
  | err (e : PlanningError)
deriving DecidableEq

/-- The stride adjustment loop at the top of `Planner::plan`
(`src/builder2/mod.rs` lines 517-520): every dimension's strides are
multiplied by the storage element strides. -/
def scaleDims (m : Meta) : List Dim :=
  m.dims.map fun d => ⟨d.n, d.in_stride * m.in_stride, d.out_stride * m.out_stride⟩

/-- `Planner::plan` (`src/builder2/mod.rs` lines 515-526): multiplies every
dimension's strides by the storage element strides, runs `FftSpec::plan`, and
on success wraps the (mutated) planner and descriptor in a `Plan`; on failure
returns `Err(e)`, consuming the builder. -/
def Planner.plan (eng : Engine) (p : Planner SpecData) :
    PlannerPlanResult × List EngineEvent :=
  let meta' := { p.meta with dims := scaleDims p.meta }
  match SpecData.plan eng p.data meta' with
  | .panicked k => (.panicked k, [])
  | .returned (.ok rp) ev => (.ok ⟨⟨meta', p.data⟩, rp⟩, ev)
  | .returned (.err e) ev => (.err e, ev)

/-- Dropping a `Plan<X>` (`src/builder2/mod.rs`): the compiler-generated drop
glue drops the owned `RawPlan`, whose `Drop` impl (`src/plan.rs` lines 44-48)
destroys the descriptor. -/
def BPlan.drop (p : BPlan) : List EngineEvent :=
  RawPlan.drop p.plan

namespace builder

/-- `Planner` from the earlier builder (`src/builder.rs` lines 42-51). -/
structure Planner where
  rigor : Rigor
  wisdom_restriction : Bool
  direction : Direction
  dims : List Dim
  howmany : List Dim
deriving DecidableEq

/-- `Planner::new` (`src/builder.rs` lines 57-65). -/
def Planner.new : Planner :=
  ⟨.estimate, false, .forward, [], []⟩

/-- `Planner::flags` (`src/builder.rs` lines 105-111): ORs
`FFTW_WISDOM_ONLY` into the rigor flags exactly when `wisdom_restriction` is
set. -/
def Planner.flags (p : Planner) : Nat :=
  p.rigor.flags ||| (if p.wisdom_restriction then FFTW_WISDOM_ONLY else 0)

/-- `Planner::dir` (`src/builder.rs` lines 112-117). -/
def Planner.dir (p : Planner) : Int :=
  match p.direction with
  | .forward => FFTW_FORWARD
  | .backward => FFTW_BACKWARD

/-- `PlanMem<I, O>` (`src/builder.rs` lines 277-286).  The Rust field holding
the `Planner` is called `plan`; it is renamed `plan_` here because the
structure also has a `plan` method.  The `planner: GuruPlanner` function
pointer is represented by the entry point it forwards to. -/
structure PlanMem where
  plan_ : Planner
  dims : List Dim
  how_many : List Dim
  in_ : List Int
  out : Option (List Int)
  planner : EntryPoint
deriving DecidableEq

/-- The lowering call the closure inside `PlanMem::plan` (`src/builder.rs`
lines 300-309) hands to `RawPlan::new`: rank and dims from `self.dims`, a
zero-rank batch, and `self.plan.dir()` / `self.plan.flags()`.  The `c2r` and
`r2c` wrapper functions (`src/builder.rs` lines 237-254) discard the sign
before reaching the engine, so `sign` is recorded only for the c2c entry
point. -/
def PlanMem.loweringCall (m : PlanMem) : LoweringCall :=
  ⟨m.planner, m.dims.length, m.dims, 0, [],
   if m.planner = .guru64Dft then some m.plan_.dir else none,
   none, m.plan_.flags⟩

/-- `Planned<I, O>` (`src/builder.rs` lines 319-322). -/
structure Planned where
  mem : PlanMem
  plan : RawPlan
deriving DecidableEq

/-- `PlanMem::plan` (`src/builder.rs` lines 290-315): asserts
`self.dims.len() == 1` (`none` models the panic), runs the guru planner under
`RawPlan::new`, and returns `Ok(Planned { mem: self, .. })` on success or
`Err(self)` — the intact `PlanMem` with its storages — on a null plan. -/
def PlanMem.plan (eng : Engine) (m : PlanMem) :
    Option ((Planned ⊕ PlanMem) × List EngineEvent) :=
  if m.dims.length = 1 then
    match RawPlan.new eng m.loweringCall with
    | (some p, ev) => some (.inl ⟨m, p⟩, ev)
    | (none, ev) => some (.inr m, ev)
  else
    none

end builder

/-- An engine that always fails (returns the null plan). -/
def engNone : Engine := fun _ => none

/-- An engine that always yields descriptor `0`. -/
def engSome : Engine := fun _ => some 0

/-- The specification records (`Meta`) reachable through the public `Planner`
API of `src/builder2/mod.rs`: one constructor per public operation that can
produce or transform a planner.  `_1d`, `_2d` and `_3d` delegate to `nd` and
are covered by its constructor. -/
inductive ReachableMeta : Meta → Prop where
  | new : ReachableMeta Planner.new.meta
  | input (p : Planner BeginS) (e : ElemTy) (b : Buffer) :
      ReachableMeta p.meta → ReachableMeta (p.input e b).meta
  | output (p : Planner InputS) (oe : ElemTy) (ob : Buffer) :
      ReachableMeta p.meta → ReachableMeta (p.output oe ob).meta
  | inplace (p : Planner InputS) :
      ReachableMeta p.meta → ReachableMeta p.inplace.meta
  | rigor {σ : Type} (p : Planner σ) (r : Rigor) :
      ReachableMeta p.meta → ReachableMeta (p.rigor r).meta
  | wisdom {σ : Type} (p : Planner σ) (w : Bool) :
      ReachableMeta p.meta → ReachableMeta (p.wisdom_restriction w).meta
  | direction {σ : Type} (p : Planner σ) (d : Direction) :
      ReachableMeta p.meta → ReachableMeta (p.direction d).meta
  | nd (p : Planner SpecData) (ls : List Nat) (q : Planner SpecData) :
      ReachableMeta p.meta → p.nd ls = some q → ReachableMeta q.meta
  | nd_subarray (p : Planner SpecData) (es : List (Nat × Nat × Nat)) (q : Planner SpecData) :
      ReachableMeta p.meta → p.nd_subarray es = some q → ReachableMeta q.meta
  | r2r_kinds (p : Planner SpecData) (ks : List R2rKind) (q : Planner SpecData) :
      ReachableMeta p.meta → p.r2r_kinds ks = some q → ReachableMeta q.meta

/-- The engine events observable from a `FftData::plan` outcome (none when
the call panicked before reaching the engine). -/
def eventsOf : PlanOutcome → List EngineEvent
  | .panicked _ => []
  | .returned _ ev => ev

/-! ### Helper lemmas -/

theorem foldl_mul_n (l : List Dim) (a : Nat) :
    l.foldl (fun m d => m * d.n) a = a * (l.map Dim.n).prod := by
  induction l generalizing a with
  | nil => simp
  | cons d t ih => simp [ih, mul_assoc]

theorem rowMajorStrides_append (s : Nat) (xs ys : List Nat) :
    rowMajorStrides s (xs ++ ys) =
      rowMajorStrides s xs ++ rowMajorStrides (s * xs.prod) ys := by
  induction xs generalizing s with
  | nil => simp [rowMajorStrides]
  | cons x t ih => simp [rowMajorStrides, ih, mul_assoc]

theorem ndDims_cons (n : Nat) (rest : List Nat) :
    ndDims (n :: rest) = ⟨n, rest.prod, rest.prod⟩ :: ndDims rest := by
  unfold ndDims
  rw [List.reverse_cons, rowMajorStrides_append]
  simp [rowMajorStrides, List.prod_reverse]

theorem ndDims_length (ls : List Nat) : (ndDims ls).length = ls.length := by
  induction ls with
  | nil => rfl
  | cons n t ih => rw [ndDims_cons]; simp [ih]

theorem ndDims_get (ls : List Nat) (i : Nat) (h1 : i < (ndDims ls).length)
    (h2 : i < ls.length) :
    (ndDims ls).get ⟨i, h1⟩ =
      ⟨ls.get ⟨i, h2⟩, (ls.drop (i + 1)).prod, (ls.drop (i + 1)).prod⟩ := by
  induction ls generalizing i with
  | nil => exact absurd h2 (by simp)
  | cons n t ih =>
    rw [List.get_of_eq (ndDims_cons n t)]
    cases i with
    | zero => rfl
    | succ j =>
      have hj : j < (ndDims t).length := by
        rw [ndDims_length]
        exact Nat.lt_of_succ_lt_succ h2
      simp only [List.get_cons_succ]
      exact ih j hj (Nat.lt_of_succ_lt_succ h2)

/-! ### Claim theorems -/

/-- C4: for every non-empty dimension sequence, `Dim::size` returns a real
extent equal to the product of all dimension lengths and a complex extent
equal to the product of all but the last length times `last/2 + 1` with
truncating integer division; for a single dimension of length `n` this is
`(n, n / 2 + 1)`. -/
theorem dim_size_extents (ds : List Dim) (h : ds ≠ []) :
    Dim.size ds = ((ds.map Dim.n).prod,
      (ds.dropLast.map Dim.n).prod * ((ds.getLast h).n / 2 + 1)) ∧
    ∀ (n s1 s2 : Nat), Dim.size [⟨n, s1, s2⟩] = (n, n / 2 + 1) := by
  constructor
  · unfold Dim.size
    rw [List.getLast?_eq_getLast ds h]
    simp only [foldl_mul_n, one_mul, Prod.mk.injEq]
    refine ⟨?_, trivial⟩
    conv_rhs => rw [← List.dropLast_append_getLast h]
    simp
  · intro n s1 s2
    simp [Dim.size]

/-- C4 witness: the claim evaluated at the concrete dimension list
`[2×3×5]`. -/
theorem dim_size_extents_witness :
    ([⟨2, 12, 12⟩, ⟨3, 4, 4⟩, ⟨5, 1, 1⟩] : List Dim) ≠ [] ∧
    Dim.size [⟨2, 12, 12⟩, ⟨3, 4, 4⟩, ⟨5, 1, 1⟩] = (30, 18) ∧
    Dim.size [⟨5, 1, 1⟩] = (5, 3) := by
  have h := dim_size_extents [⟨2, 12, 12⟩, ⟨3, 4, 4⟩, ⟨5, 1, 1⟩] (by decide)
  exact ⟨by decide, by rw [h.1]; decide, by rw [h.2 5 1 1]⟩

/-- C7: `nd` replaces the entire dimension list with one `Dim` per length,
whose input and output strides are equal and row-major (each axis's stride is
the product of all lengths after it, innermost stride 1); `nd` of an empty
sequence panics, and `_1d`/`_2d`/`_3d` delegate to `nd`. -/
theorem nd_row_major (p : Planner SpecData) (ls : List Nat) (h : ls ≠ []) :
    Planner.nd p ls = some { p with meta := { p.meta with dims := ndDims ls } } ∧
    Planner.nd p [] = none ∧
    (ndDims ls).length = ls.length ∧
    (∀ (i : Nat) (h1 : i < (ndDims ls).length) (h2 : i < ls.length),
      (ndDims ls).get ⟨i, h1⟩ =
        ⟨ls.get ⟨i, h2⟩, (ls.drop (i + 1)).prod, (ls.drop (i + 1)).prod⟩) ∧
    (∀ n, Planner._1d p n = Planner.nd p [n]) ∧
    (∀ n0 n1, Planner._2d p n0 n1 = Planner.nd p [n0, n1]) ∧
    (∀ n0 n1 n2, Planner._3d p n0 n1 n2 = Planner.nd p [n0, n1, n2]) := by
  refine ⟨?_, rfl, ndDims_length ls, ndDims_get ls,
    fun _ => rfl, fun _ _ => rfl, fun _ _ _ => rfl⟩
  have : ls.isEmpty = false := by
    cases ls with
    | nil => exact absurd rfl h
    | cons a t => rfl
  simp [Planner.nd, this]

/-- C7 witness: `nd` on `[2, 3, 4]` installs the row-major dimension list
`[(2,12,12), (3,4,4), (4,1,1)]`. -/
theorem nd_row_major_witness :
    ([2, 3, 4] : List Nat) ≠ [] ∧
    Planner.nd ⟨Planner.new.meta, .inplace .complex ⟨[1], 1⟩⟩ [2, 3, 4] =
      some ⟨{ Planner.new.meta with dims := [⟨2, 12, 12⟩, ⟨3, 4, 4⟩, ⟨4, 1, 1⟩] },
            .inplace .complex ⟨[1], 1⟩⟩ := by
  refine ⟨by decide, ?_⟩
  rw [(nd_row_major ⟨Planner.new.meta, .inplace .complex ⟨[1], 1⟩⟩ [2, 3, 4] (by decide)).1]
  decide

/-- C8: the `rigor`, `wisdom_restriction` and `direction` setters are
available in every builder stage (`σ` is arbitrary), total, stage-preserving,
and each modifies only its own `Meta` field, leaving the dimension list,
strides, kind list and bound stage data (storages) unchanged. -/
theorem stage_free_setters (σ : Type) (p : Planner σ) (r : Rigor) (w : Bool) (d : Direction) :
    ((p.rigor r).data = p.data ∧ (p.rigor r).meta.rigor = r ∧
     (p.rigor r).meta.wisdom_restriction = p.meta.wisdom_restriction ∧
     (p.rigor r).meta.direction = p.meta.direction ∧
     (p.rigor r).meta.in_stride = p.meta.in_stride ∧
     (p.rigor r).meta.out_stride = p.meta.out_stride ∧
     (p.rigor r).meta.r2r_kinds = p.meta.r2r_kinds ∧
     (p.rigor r).meta.overall_dims = p.meta.overall_dims ∧
     (p.rigor r).meta.dims = p.meta.dims ∧
     (p.rigor r).meta.howmany = p.meta.howmany) ∧
    ((p.wisdom_restriction w).data = p.data ∧
     (p.wisdom_restriction w).meta.wisdom_restriction = w ∧
     (p.wisdom_restriction w).meta.rigor = p.meta.rigor ∧
     (p.wisdom_restriction w).meta.direction = p.meta.direction ∧
     (p.wisdom_restriction w).meta.in_stride = p.meta.in_stride ∧
     (p.wisdom_restriction w).meta.out_stride = p.meta.out_stride ∧
     (p.wisdom_restriction w).meta.r2r_kinds = p.meta.r2r_kinds ∧
     (p.wisdom_restriction w).meta.overall_dims = p.meta.overall_dims ∧
     (p.wisdom_restriction w).meta.dims = p.meta.dims ∧
     (p.wisdom_restriction w).meta.howmany = p.meta.howmany) ∧
    ((p.direction d).data = p.data ∧ (p.direction d).meta.direction = d ∧
     (p.direction d).meta.rigor = p.meta.rigor ∧
     (p.direction d).meta.wisdom_restriction = p.meta.wisdom_restriction ∧
     (p.direction d).meta.in_stride = p.meta.in_stride ∧
     (p.direction d).meta.out_stride = p.meta.out_stride ∧
     (p.direction d).meta.r2r_kinds = p.meta.r2r_kinds ∧
     (p.direction d).meta.overall_dims = p.meta.overall_dims ∧
     (p.direction d).meta.dims = p.meta.dims ∧
     (p.direction d).meta.howmany = p.meta.howmany) :=
  ⟨⟨rfl, rfl, rfl, rfl, rfl, rfl, rfl, rfl, rfl, rfl⟩,
   ⟨rfl, rfl, rfl, rfl, rfl, rfl, rfl, rfl, rfl, rfl⟩,
   ⟨rfl, rfl, rfl, rfl, rfl, rfl, rfl, rfl, rfl, rfl⟩⟩

theorem planC2C_no_panic (eng : Engine) (i : Buffer) (o : Option Buffer) (m : Meta)
    (k : PanicKind) : planC2C eng i o m ≠ .panicked k := by
  simp only [planC2C]
  repeat' split
  all_goals simp

theorem planR2R_no_unimplemented (eng : Engine) (i : Buffer) (o : Option Buffer)
    (m : Meta) : planR2R eng i o m ≠ .panicked .unimplemented := by
  simp only [planR2R]
  repeat' split
  all_goals simp

theorem planR2C_some_no_panic (eng : Engine) (i o : Buffer) (m : Meta) (k : PanicKind) :
    planR2C eng i (some o) m ≠ .panicked k := by
  simp only [planR2C]
  repeat' split
  all_goals simp

theorem planC2R_some_no_panic (eng : Engine) (i o : Buffer) (m : Meta) (k : PanicKind) :
    planC2R eng i (some o) m ≠ .panicked k := by
  simp only [planC2R]
  repeat' split
  all_goals simp

/-- C10: no `FftData::plan` invocation reachable through the public builder
API hits the `unimplemented!()` in-place branch of the real→complex or
complex→real lowering: `Inplace` dispatches the diagonal impl of its single
element type (the Rust bound `I::Elem: FftData<I::Elem>` on
`Planner::inplace`), i.e. complex→complex or real→real, and `Io` always
passes `Some(out)`.  The last conjunct records that the in-place branch of the
cross-type lowerings is exactly the `unimplemented!()` panic, so its
unreachability is what keeps the API panic-free there. -/
theorem inplace_never_unimplemented :
    (∀ (e : ElemTy) (eng : Engine) (b : Buffer) (m : Meta),
      SpecData.plan eng (.inplace e b) m ≠ .panicked .unimplemented) ∧
    (∀ (t u : ElemTy) (eng : Engine) (i o : Buffer) (m : Meta),
      SpecData.plan eng (.io t u i o) m ≠ .panicked .unimplemented) ∧
    (∀ (eng : Engine) (i : Buffer) (m : Meta),
      planR2C eng i none m = .panicked .unimplemented ∧
      planC2R eng i none m = .panicked .unimplemented) := by
  refine ⟨?_, ?_, fun _ _ _ => ⟨rfl, rfl⟩⟩
  · intro e eng b m
    cases e
    · exact planR2R_no_unimplemented eng b none m
    · exact planC2C_no_panic eng b none m .unimplemented
  · intro t u eng i o m
    cases t <;> cases u
    · exact planR2R_no_unimplemented eng i (some o) m
    · exact planR2C_some_no_panic eng i o m .unimplemented
    · exact planC2R_some_no_panic eng i o m .unimplemented
    · exact planC2C_no_panic eng i (some o) m .unimplemented

/-- C3 (code-bug evaluation): `RawPlan::new` emits the plan-creation call
with the process-wide lock held and `execute` is unguarded as claimed, but
`Drop for RawPlan` — and therefore dropping a `Plan` — emits the teardown
call with the lock NOT held, contradicting the guarded-teardown part of the
claim. -/
theorem destroy_unguarded :
    (RawPlan.new engSome ⟨.guru64Dft, 1, [⟨4, 1, 1⟩], 0, [], some (-1), none, 64⟩).snd =
      [⟨.create ⟨.guru64Dft, 1, [⟨4, 1, 1⟩], 0, [], some (-1), none, 64⟩, true⟩] ∧
    RawPlan.execute ⟨7⟩ = [⟨.execute 7, false⟩] ∧
    RawPlan.drop ⟨7⟩ = [⟨.destroy 7, false⟩] ∧
    BPlan.drop ⟨⟨Planner.new.meta, .inplace .complex ⟨[1], 1⟩⟩, ⟨7⟩⟩ =
      [⟨.destroy 7, false⟩] :=
  ⟨rfl, rfl, rfl, rfl⟩

/-- C2 (code-bug evaluation): the old builder's `Planner::flags` includes
`FFTW_WISDOM_ONLY` (bit 21) exactly when `wisdom_restriction` is set, but the
`builder2` lowering passes only `meta.rigor.flags()` to the engine: a
finalized specification with `wisdom_restriction = true` emits an effort
bitmask of plain `FFTW_ESTIMATE`, whose wisdom-only bit is clear. -/
theorem wisdom_flags_divergence :
    (∀ p : builder.Planner, (builder.Planner.flags p).testBit 21 = p.wisdom_restriction) ∧
    (Planner.plan engSome
        ⟨{ Planner.new.meta with wisdom_restriction := true, dims := [⟨4, 1, 1⟩] },
         .io .complex .complex ⟨[1, 2, 3, 4], 1⟩ ⟨[5, 6, 7, 8], 1⟩⟩).snd =
      [⟨.create ⟨.guru64Dft, 1, [⟨4, 1, 1⟩], 0, [], some (-1), none, FFTW_ESTIMATE⟩,
        true⟩] ∧
    Nat.testBit FFTW_ESTIMATE 21 = false := by
  refine ⟨?_, by decide, by decide⟩
  intro p
  obtain ⟨r, w, d, dims, hm⟩ := p
  show Nat.testBit (Rigor.flags r ||| if w then FFTW_WISDOM_ONLY else 0) 21 = w
  cases r <;> cases w <;> decide

/-- C1 counterexample: two Ready builders differing only in the contents of
their bound input storage give identical results from a failing
`builder2::Planner::plan` call — so the failure value cannot return "the
original builder with its bound storages intact"; the `Err` branch of
`Result<Plan<X>, PlanningError>` carries only the error and the storages are
dropped. -/
theorem plan_failure_counterexample :
    Planner.plan engNone ⟨Planner.new.meta, .io .real .complex ⟨[5], 1⟩ ⟨[7, 8], 1⟩⟩ =
      Planner.plan engNone ⟨Planner.new.meta, .io .real .complex ⟨[6], 1⟩ ⟨[7, 8], 1⟩⟩ ∧
    (⟨Planner.new.meta, .io .real .complex ⟨[5], 1⟩ ⟨[7, 8], 1⟩⟩ : Planner SpecData) ≠
      ⟨Planner.new.meta, .io .real .complex ⟨[6], 1⟩ ⟨[7, 8], 1⟩⟩ ∧
    Planner.plan engNone ⟨Planner.new.meta, .io .real .complex ⟨[5], 1⟩ ⟨[7, 8], 1⟩⟩ =
      (.err .noLengthNoDefault, []) :=
  ⟨by decide, by decide, by decide⟩

/-- C1 (amended): on failure `builder2::Planner::plan` returns only the
`PlanningError`, consuming the builder; the return-the-rejected-input
contract holds for the earlier `builder::PlanMem::plan`, whose failure value
is `Err(self)` — the untouched `PlanMem` with its storages — and on success
of either API the storages transfer into the returned plan value. -/
theorem plan_failure_behavior (eng : Engine) (m : builder.PlanMem)
    (h1 : m.dims.length = 1) :
    (eng m.loweringCall = none →
      builder.PlanMem.plan eng m = some (.inr m, [⟨.create m.loweringCall, true⟩])) ∧
    (∀ d, eng m.loweringCall = some d →
      builder.PlanMem.plan eng m =
        some (.inl ⟨m, ⟨d⟩⟩, [⟨.create m.loweringCall, true⟩])) ∧
    (∀ (p : Planner SpecData) (pl : BPlan) (ev : List EngineEvent),
      Planner.plan eng p = (.ok pl, ev) → pl.planner.data = p.data) := by
  refine ⟨?_, ?_, ?_⟩
  · intro h
    simp [builder.PlanMem.plan, RawPlan.new, h1, h]
  · intro d h
    simp [builder.PlanMem.plan, RawPlan.new, h1, h]
  · intro p pl ev h
    simp only [Planner.plan] at h
    split at h
    · simp at h
    · rw [Prod.mk.injEq] at h
      obtain ⟨ha, hb⟩ := h
      injection ha with hc
      subst hc
      rfl
    · simp at h

/-- C1 amended witness: a concrete one-dimensional c2c `PlanMem` run against
the always-failing engine comes back inside the `Err`, storages intact. -/
theorem plan_failure_behavior_witness :
    builder.PlanMem.plan engNone
        ⟨builder.Planner.new, [⟨4, 1, 1⟩], [], [1, 2, 3, 4], some [5, 6, 7, 8],
         .guru64Dft⟩ =
      some (.inr ⟨builder.Planner.new, [⟨4, 1, 1⟩], [], [1, 2, 3, 4], some [5, 6, 7, 8],
                  .guru64Dft⟩,
            [⟨.create (builder.PlanMem.loweringCall
                ⟨builder.Planner.new, [⟨4, 1, 1⟩], [], [1, 2, 3, 4], some [5, 6, 7, 8],
                 .guru64Dft⟩), true⟩]) :=
  (plan_failure_behavior engNone
    ⟨builder.Planner.new, [⟨4, 1, 1⟩], [], [1, 2, 3, 4], some [5, 6, 7, 8], .guru64Dft⟩
    (by decide)).1 rfl

theorem scaleDims_empty (m : Meta) (h : m.dims = []) : scaleDims m = [] := by
  simp [scaleDims, h]

theorem meta_dims_self (m : Meta) (h : m.dims = []) :
    { m with dims := ([] : List Dim) } = m := by
  obtain ⟨r, w, d, is, os, ks, od, ds, hm⟩ := m
  simp_all

theorem do_plan_snd (eng : Engine) (c : LoweringCall) :
    (do_plan eng c).snd = [⟨.create c, true⟩] := by
  cases heng : eng c <;> simp [do_plan, RawPlan.new, heng]

/-- C5: a Ready builder whose dimension list was never set fails with
`NoLengthNoDefault` when the element-type pairing is real→complex or
complex→real; for the complex→complex and real→real pairings the lowering is
run with an implicit default of one dimension spanning the whole input
buffer, succeeding exactly when the remaining checks pass and the engine
yields a descriptor. -/
theorem no_length_default (eng : Engine) (m : Meta) (hd : m.dims = []) (i o : Buffer) :
    (Planner.plan eng ⟨m, .io .real .complex i o⟩ = (.err .noLengthNoDefault, [])) ∧
    (Planner.plan eng ⟨m, .io .complex .real i o⟩ = (.err .noLengthNoDefault, [])) ∧
    (i.len ≤ o.len →
      Planner.plan eng ⟨m, .io .complex .complex i o⟩ =
        ((match eng ⟨.guru64Dft, 1, [⟨i.len, i.stride, o.stride⟩], m.howmany.length,
                     m.howmany, some m.direction.sign, none, m.rigor.flags⟩ with
          | some d => .ok ⟨⟨m, .io .complex .complex i o⟩, ⟨d⟩⟩
          | none => .err .fftwError),
         [⟨.create ⟨.guru64Dft, 1, [⟨i.len, i.stride, o.stride⟩], m.howmany.length,
                    m.howmany, some m.direction.sign, none, m.rigor.flags⟩, true⟩])) ∧
    (Planner.plan eng ⟨m, .inplace .complex i⟩ =
        ((match eng ⟨.guru64Dft, 1, [⟨i.len, i.stride, i.stride⟩], m.howmany.length,
                     m.howmany, some m.direction.sign, none, m.rigor.flags⟩ with
          | some d => .ok ⟨⟨m, .inplace .complex i⟩, ⟨d⟩⟩
          | none => .err .fftwError),
         [⟨.create ⟨.guru64Dft, 1, [⟨i.len, i.stride, i.stride⟩], m.howmany.length,
                    m.howmany, some m.direction.sign, none, m.rigor.flags⟩, true⟩])) ∧
    (i.len ≤ o.len → m.r2r_kinds.length = 1 →
      Planner.plan eng ⟨m, .io .real .real i o⟩ =
        ((match eng ⟨.guru64R2r, 1, [⟨i.len, i.stride, o.stride⟩], m.howmany.length,
                     m.howmany, none, some m.r2r_kinds, m.rigor.flags⟩ with
          | some d => .ok ⟨⟨m, .io .real .real i o⟩, ⟨d⟩⟩
          | none => .err .fftwError),
         [⟨.create ⟨.guru64R2r, 1, [⟨i.len, i.stride, o.stride⟩], m.howmany.length,
                    m.howmany, none, some m.r2r_kinds, m.rigor.flags⟩, true⟩])) ∧
    (m.r2r_kinds.length = 1 →
      Planner.plan eng ⟨m, .inplace .real i⟩ =
        ((match eng ⟨.guru64R2r, 1, [⟨i.len, i.stride, i.stride⟩], m.howmany.length,
                     m.howmany, none, some m.r2r_kinds, m.rigor.flags⟩ with
          | some d => .ok ⟨⟨m, .inplace .real i⟩, ⟨d⟩⟩
          | none => .err .fftwError),
         [⟨.create ⟨.guru64R2r, 1, [⟨i.len, i.stride, i.stride⟩], m.howmany.length,
                    m.howmany, none, some m.r2r_kinds, m.rigor.flags⟩, true⟩])) := by
  have hs := scaleDims_empty m hd
  have hm := meta_dims_self m hd
  refine ⟨?_, ?_, ?_, ?_, ?_, ?_⟩
  · simp [Planner.plan, SpecData.plan, fftDataPlan, planR2C, hs, hm]
  · simp [Planner.plan, SpecData.plan, fftDataPlan, planC2R, hs, hm]
  · intro hio
    have hno : ¬ o.len < i.len := Nat.not_lt.mpr hio
    cases heng : eng ⟨.guru64Dft, 1, [⟨i.len, i.stride, o.stride⟩], m.howmany.length,
        m.howmany, some m.direction.sign, none, m.rigor.flags⟩ <;>
      simp [Planner.plan, SpecData.plan, fftDataPlan, planC2C, hs, hm, hno,
        do_plan, RawPlan.new, heng]
  · cases heng : eng ⟨.guru64Dft, 1, [⟨i.len, i.stride, i.stride⟩], m.howmany.length,
        m.howmany, some m.direction.sign, none, m.rigor.flags⟩ <;>
      simp [Planner.plan, SpecData.plan, fftDataPlan, planC2C, hs, hm,
        do_plan, RawPlan.new, heng]
  · intro hio hk
    have hno : ¬ o.len < i.len := Nat.not_lt.mpr hio
    cases heng : eng ⟨.guru64R2r, 1, [⟨i.len, i.stride, o.stride⟩], m.howmany.length,
        m.howmany, none, some m.r2r_kinds, m.rigor.flags⟩ <;>
      simp [Planner.plan, SpecData.plan, fftDataPlan, planR2R, hs, hm, hno, hk,
        do_plan, RawPlan.new, heng]
  · intro hk
    cases heng : eng ⟨.guru64R2r, 1, [⟨i.len, i.stride, i.stride⟩], m.howmany.length,
        m.howmany, none, some m.r2r_kinds, m.rigor.flags⟩ <;>
      simp [Planner.plan, SpecData.plan, fftDataPlan, planR2R, hs, hm, hk,
        do_plan, RawPlan.new, heng]

/-- C5 witness: with no dimensions set, a real→complex builder fails with
`NoLengthNoDefault`; complex→complex and real→real builders over the same
storages plan one whole-buffer dimension and succeed. -/
theorem no_length_default_witness :
    Planner.plan engSome
        ⟨Planner.new.meta, .io .real .complex ⟨[1, 2, 3], 1⟩ ⟨[4, 5, 6], 1⟩⟩ =
      (.err .noLengthNoDefault, []) ∧
    Planner.plan engSome
        ⟨Planner.new.meta, .io .complex .complex ⟨[1, 2, 3], 1⟩ ⟨[4, 5, 6], 1⟩⟩ =
      (.ok ⟨⟨Planner.new.meta, .io .complex .complex ⟨[1, 2, 3], 1⟩ ⟨[4, 5, 6], 1⟩⟩, ⟨0⟩⟩,
       [⟨.create ⟨.guru64Dft, 1, [⟨3, 1, 1⟩], 0, [], some (-1), none, 64⟩, true⟩]) ∧
    Planner.plan engSome
        ⟨{ Planner.new.meta with r2r_kinds := [0] },
         .io .real .real ⟨[1, 2, 3], 1⟩ ⟨[4, 5, 6], 1⟩⟩ =
      (.ok ⟨⟨{ Planner.new.meta with r2r_kinds := [0] },
             .io .real .real ⟨[1, 2, 3], 1⟩ ⟨[4, 5, 6], 1⟩⟩, ⟨0⟩⟩,
       [⟨.create ⟨.guru64R2r, 1, [⟨3, 1, 1⟩], 0, [], none, some [0], 64⟩, true⟩]) := by
  refine ⟨?_, ?_, ?_⟩
  · exact (no_length_default engSome Planner.new.meta rfl ⟨[1, 2, 3], 1⟩ ⟨[4, 5, 6], 1⟩).1
  · exact ((no_length_default engSome Planner.new.meta rfl ⟨[1, 2, 3], 1⟩
      ⟨[4, 5, 6], 1⟩).2.2.1 (by decide)).trans (by decide)
  · exact ((no_length_default engSome { Planner.new.meta with r2r_kinds := [0] } rfl
      ⟨[1, 2, 3], 1⟩ ⟨[4, 5, 6], 1⟩).2.2.2.2.1 (by decide) (by decide)).trans (by decide)

theorem dim_size_scaleDims (m : Meta) : Dim.size (scaleDims m) = Dim.size m.dims := by
  unfold Dim.size scaleDims
  rw [List.getLast?_map]
  cases hl : m.dims.getLast? with
  | none => rfl
  | some last =>
    simp only [Option.map_some']
    rw [← List.map_dropLast]
    simp only [List.foldl_map]

/-- C6 (amended): when either buffer is smaller than the required extent
computed from the dimension list, `plan()` fails with `BufferTooSmall`
carrying the input-buffer length, then the output-buffer length, then the
stride-adjusted dimension list — for real→complex that is (real, complex)
order, but for complex→real it is (complex, real) order — and no engine
lowering call is made. -/
theorem buffer_too_small (eng : Engine) (m : Meta) (hne : m.dims ≠ []) (i o b : Buffer) :
    (i.len < (Dim.size m.dims).fst ∨ o.len < (Dim.size m.dims).snd →
      Planner.plan eng ⟨m, .io .real .complex i o⟩ =
        (.err (.bufferTooSmall i.len o.len (scaleDims m)), [])) ∧
    (i.len < (Dim.size m.dims).snd ∨ o.len < (Dim.size m.dims).fst →
      Planner.plan eng ⟨m, .io .complex .real i o⟩ =
        (.err (.bufferTooSmall i.len o.len (scaleDims m)), [])) ∧
    (i.len < (Dim.size m.dims).fst ∨ o.len < (Dim.size m.dims).fst →
      Planner.plan eng ⟨m, .io .complex .complex i o⟩ =
        (.err (.bufferTooSmall i.len o.len (scaleDims m)), [])) ∧
    (i.len < (Dim.size m.dims).fst ∨ o.len < (Dim.size m.dims).fst →
      Planner.plan eng ⟨m, .io .real .real i o⟩ =
        (.err (.bufferTooSmall i.len o.len (scaleDims m)), [])) ∧
    (b.len < (Dim.size m.dims).fst →
      Planner.plan eng ⟨m, .inplace .complex b⟩ =
        (.err (.bufferTooSmall b.len b.len (scaleDims m)), [])) ∧
    (b.len < (Dim.size m.dims).fst →
      Planner.plan eng ⟨m, .inplace .real b⟩ =
        (.err (.bufferTooSmall b.len b.len (scaleDims m)), [])) := by
  have hsne : scaleDims m ≠ [] := by
    simpa [scaleDims] using hne
  refine ⟨?_, ?_, ?_, ?_, ?_, ?_⟩
  · intro hlt
    simp [Planner.plan, SpecData.plan, fftDataPlan, planR2C, dim_size_scaleDims, hsne, hlt]
  · intro hlt
    simp [Planner.plan, SpecData.plan, fftDataPlan, planC2R, dim_size_scaleDims, hsne, hlt]
  · intro hlt
    simp [Planner.plan, SpecData.plan, fftDataPlan, planC2C, dim_size_scaleDims, hsne, hlt]
  · intro hlt
    simp [Planner.plan, SpecData.plan, fftDataPlan, planR2R, dim_size_scaleDims, hsne, hlt]
  · intro hlt
    simp [Planner.plan, SpecData.plan, fftDataPlan, planC2C, dim_size_scaleDims, hsne, hlt]
  · intro hlt
    simp [Planner.plan, SpecData.plan, fftDataPlan, planR2R, dim_size_scaleDims, hsne, hlt]

/-- C6 counterexample: a complex→real plan whose complex input has 5 elements
and whose real output has 3 elements (required: 6 complex, 10 real) fails
with `BufferTooSmall(5, 3, dims)` — input length first — whereas the claimed
payload order (actual real length, then actual complex length) would be
`BufferTooSmall(3, 5, dims)`; the two are distinct values. -/
theorem buffer_payload_counterexample :
    Planner.plan engSome
        ⟨{ Planner.new.meta with dims := [⟨10, 1, 1⟩] },
         .io .complex .real ⟨[1, 2, 3, 4, 5], 1⟩ ⟨[1, 2, 3], 1⟩⟩ =
      (.err (.bufferTooSmall 5 3 [⟨10, 1, 1⟩]), []) ∧
    PlanningError.bufferTooSmall 5 3 [⟨10, 1, 1⟩] ≠
      PlanningError.bufferTooSmall 3 5 [⟨10, 1, 1⟩] :=
  ⟨by decide, by decide⟩

/-- C6 amended witness: a real→complex plan over one dimension of length 4
with a 2-element complex output (required `4/2 + 1 = 3`) is rejected with
`BufferTooSmall(4, 2, dims)` before any engine call. -/
theorem buffer_too_small_witness :
    (({ Planner.new.meta with dims := [⟨4, 1, 1⟩] } : Meta).dims ≠ []) ∧
    Planner.plan engSome
        ⟨{ Planner.new.meta with dims := [⟨4, 1, 1⟩] },
         .io .real .complex ⟨[1, 2, 3, 4], 1⟩ ⟨[9, 9], 1⟩⟩ =
      (.err (.bufferTooSmall 4 2 [⟨4, 1, 1⟩]), []) := by
  refine ⟨by decide, ?_⟩
  exact ((buffer_too_small engSome { Planner.new.meta with dims := [⟨4, 1, 1⟩] } (by decide)
    ⟨[1, 2, 3, 4], 1⟩ ⟨[9, 9], 1⟩ ⟨[], 1⟩).1 (by decide)).trans (by decide)

theorem reachable_howmany (m : Meta) (h : ReachableMeta m) : m.howmany = [] := by
  induction h with
  | new => rfl
  | input p e b hp ih => exact ih
  | output p oe ob hp ih => exact ih
  | inplace p hp ih => exact ih
  | rigor p r hp ih => exact ih
  | wisdom p w hp ih => exact ih
  | direction p d hp ih => exact ih
  | nd p ls q hp heq ih =>
    unfold Planner.nd at heq
    split at heq
    · simp at heq
    · cases heq
      exact ih
  | nd_subarray p es q hp heq ih =>
    unfold Planner.nd_subarray at heq
    split at heq
    · simp at heq
    · cases heq
      exact ih
  | r2r_kinds p ks q hp heq ih =>
    unfold Planner.r2r_kinds at heq
    split at heq
    · simp at heq
    · cases heq
      exact ih

theorem fftDataPlan_calls (eng : Engine) (t u : ElemTy) (i : Buffer) (o : Option Buffer)
    (m : Meta) :
    ∀ e ∈ eventsOf (fftDataPlan t u eng i o m), ∀ c, e.op = .create c →
      c.howmanyRank = m.howmany.length ∧ c.howmanyDims = m.howmany := by
  cases t <;> cases u <;>
    simp only [fftDataPlan, planC2C, planR2C, planC2R, planR2R] <;>
    repeat' split
  all_goals intro e he c hc
  all_goals simp_all [eventsOf, do_plan_snd]
  all_goals (subst hc; exact ⟨rfl, rfl⟩)

/-- C9: every `Planner` reachable through the public API has an empty batch
("howmany") dimension list, and every lowering call issued by `plan()` passes
batch rank 0 and an empty batch list to the engine — one transform per
execute. -/
theorem howmany_rank_zero (eng : Engine) (p : Planner SpecData)
    (h : ReachableMeta p.meta) :
    p.meta.howmany = [] ∧
    ∀ e ∈ (Planner.plan eng p).snd, ∀ c, e.op = .create c →
      c.howmanyRank = 0 ∧ c.howmanyDims = [] := by
  have hm := reachable_howmany p.meta h
  refine ⟨hm, ?_⟩
  intro e he c hc
  have hsnd : (Planner.plan eng p).snd =
      eventsOf (SpecData.plan eng p.data { p.meta with dims := scaleDims p.meta }) := by
    simp only [Planner.plan]
    split <;> rename_i heq <;> rw [heq] <;> rfl
  rw [hsnd] at he
  have key : c.howmanyRank = ({ p.meta with dims := scaleDims p.meta } : Meta).howmany.length ∧
      c.howmanyDims = ({ p.meta with dims := scaleDims p.meta } : Meta).howmany := by
    cases hp : p.data with
    | inplace e' b =>
      rw [hp] at he
      exact fftDataPlan_calls eng e' e' b none _ e he c hc
    | io t u i' o' =>
      rw [hp] at he
      exact fftDataPlan_calls eng t u i' (some o') _ e he c hc
  exact ⟨key.1.trans (congrArg List.length hm), key.2.trans hm⟩

/-- C9 witness: a reachable complex→complex planner built through
`new`/`input`/`output` issues its lowering call with batch rank 0. -/
theorem howmany_rank_zero_witness :
    (⟨.guru64Dft, 1, [⟨2, 1, 1⟩], 0, [], some (-1), none, 64⟩ : LoweringCall).howmanyRank
      = 0 ∧
    (⟨.guru64Dft, 1, [⟨2, 1, 1⟩], 0, [], some (-1), none, 64⟩ : LoweringCall).howmanyDims
      = [] :=
  (howmany_rank_zero engSome
      ((Planner.new.input .complex ⟨[1, 2], 1⟩).output .complex ⟨[3, 4], 1⟩)
      (ReachableMeta.output (Planner.new.input .complex ⟨[1, 2], 1⟩) .complex ⟨[3, 4], 1⟩
        (ReachableMeta.input Planner.new .complex ⟨[1, 2], 1⟩ ReachableMeta.new))).2
    ⟨.create ⟨.guru64Dft, 1, [⟨2, 1, 1⟩], 0, [], some (-1), none, 64⟩, true⟩
    (by decide)
    ⟨.guru64Dft, 1, [⟨2, 1, 1⟩], 0, [], some (-1), none, 64⟩
    rfl

end Fftw3
